import Mathlib

/-!
Verification of the LocationFlex write/read orchestration layer.

Shallow embedding of the Python sources:
  src/network_utils.py   (create_redis_key_simple)
  src/fast_writer.py     (FastWriter: get_key_data, write_pipeline_batches)
  src/parallel_writer.py (ParallelWriter: run_parallel_import partitioning,
                          run_full_parallel_import projection)
  src/simple_reader.py   (SimpleReader: read_key_with_fallback,
                          pipelined batch reads, statistics)

Store effects (Redis GET / SET / pipeline execute) are modelled by explicit
oracle functions passed to each embedded operation; an oracle value of
Except.error or Option.none stands for a raised exception at that call.
-/

namespace LocationFlex

/-- Key format of create_redis_key_simple in network_utils.py:
the f-string "ip:<version>:<key_id>". -/
def create_redis_key_simple (keyId : Nat) (version : String) : String :=
  "ip:" ++ version ++ ":" ++ toString keyId

/-! ### Key-space partitioning (ParallelWriter.run_parallel_import) -/

/-- Quotient computed in run_parallel_import:
keys_per_writer = target_keys // self.num_writers. -/
def keys_per_writer (targetKeys numWriters : Nat) : Nat :=
  targetKeys / numWriters

/-- Remainder computed in run_parallel_import:
remainder = target_keys % self.num_writers. -/
def partition_remainder (targetKeys numWriters : Nat) : Nat :=
  targetKeys % numWriters

/-- Range handed to 0-indexed worker i in run_parallel_import:
start_key = i * keys_per_writer, end_key = start_key + keys_per_writer,
and the last writer (i = num_writers - 1) gets end_key += remainder. -/
def writer_range (targetKeys numWriters i : Nat) : Nat × Nat :=
  let per := keys_per_writer targetKeys numWriters
  let startKey := i * per
  let endKey := startKey + per
  (startKey,
   if i = numWriters - 1 then endKey + partition_remainder targetKeys numWriters
   else endKey)

/-- All worker ranges produced by the loop for i in range(self.num_writers). -/
def writer_ranges (targetKeys numWriters : Nat) : List (Nat × Nat) :=
  (List.range numWriters).map (writer_range targetKeys numWriters)

/-- Identifiers of a half-open range (start_key, end_key), in the increasing
order in which a FastWriter bound to that range consumes them. -/
def range_ids (r : Nat × Nat) : List Nat :=
  List.range' r.1 (r.2 - r.1)

/-! ### FastWriter (fast_writer.py) -/

/-- Fields of a FastWriter instance read by the embedded operations:
max_daily_keys and skip_probability from the constructor, version and
key_ttl_seconds from the configuration, and sample_keys as loaded from
sampleKeys.json (a table indexed by the decimal string of key_id % 100,
modelled as a function of that index). -/
structure FastWriterConfig where
  maxDailyKeys : Nat
  skipProbability : ℚ
  version : String
  sampleKeys : Nat → String
  keyTtlSeconds : Nat

/-- Embedding of FastWriter.get_key_data: sample_index = key_id % 100,
redis_value = the pre-generated sample at that index, redis_key from
create_redis_key_simple(key_id, self.version); returns (key, value). -/
def get_key_data (w : FastWriterConfig) (keyId : Nat) : String × String :=
  let sampleIndex := keyId % 100
  let redisValue := w.sampleKeys sampleIndex
  let redisKey := create_redis_key_simple keyId w.version
  (redisKey, redisValue)

/-- Store oracle for the write path. pipelineResult models pipe.execute()
on a prepared batch: none stands for a raised exception, some rs for the
returned per-command results (truthiness of each). individualWrite
models redis_client.set_value_with_ttl: none stands for a raised
exception, some b for a Boolean return. -/
structure WriteOracle where
  pipelineResult : Nat → List (String × String) → Option (List Bool)
  individualWrite : String → String → Nat → Option Bool

/-- Embedding of the per-key fallback loop of write_pipeline_batches
(the except branch): each (key, value) of the failed batch is issued as
one individual write inside its own try; an exception or a False return
for one key leaves the loop to continue with the remaining keys.
Returns the number of successful writes together with the list of keys
attempted, in order. -/
def fallback_individual_writes (o : WriteOracle) (ttl : Nat) :
    List (String × String) → Nat × List String
  | [] => (0, [])
  | (k, v) :: rest =>
    let r := fallback_individual_writes o ttl rest
    match o.individualWrite k v ttl with
    | some true => (r.1 + 1, k :: r.2)
    | _ => (r.1, k :: r.2)

/-- Written-count contribution of one prepared batch in
write_pipeline_batches: on pipeline success, the count of truthy results
(written += len of r for r in results if r); on a raised pipeline call,
the successes of the per-key fallback loop. The ttl argument is
self.config.writer.key_ttl_seconds, passed uniformly to every setex. -/
def write_batch (o : WriteOracle) (ttl : Nat)
    (batchData : List (String × String)) : Nat :=
  match o.pipelineResult ttl batchData with
  | some results => (results.filter (fun r => r)).length
  | none => (fallback_individual_writes o ttl batchData).1

/-- Ids consumed by the batch-preparation loop of write_pipeline_batches:
up to current_batch_size iterations, each taking current_key_id and
incrementing it, breaking early when the cursor reaches max_daily_keys. -/
def batch_ids (maxDailyKeys cur cbs : Nat) : List Nat :=
  List.range' cur (min cbs (maxDailyKeys - cur))

/-- Observable outcome of one write_pipeline_batches call: the returned
(written, skipped) pair plus the value of current_key_id afterwards. -/
structure WriteCallResult where
  written : Nat
  skipped : Nat
  cursor : Nat
deriving DecidableEq

/-- Embedding of FastWriter.write_pipeline_batches (fast_writer.py lines
88-139). remaining counts down from the requested count; each outer
iteration runs while remaining > 0 and current_key_id < max_daily_keys,
prepares current_batch_size = min(batch_size, remaining) ids (the inner
loop breaks at max_daily_keys), maps them through get_key_data, writes
the non-empty batch via write_batch, and subtracts current_batch_size
from remaining. The skip-write branch of the source is commented out,
so skipped is never incremented. A batch_size of zero makes the Python
loop spin forever without progress; the embedding returns the state
unchanged in that case. -/
def write_pipeline_batches (o : WriteOracle) (w : FastWriterConfig)
    (batchSize : Nat) (remaining cur : Nat) : WriteCallResult :=
  if h : remaining = 0 ∨ w.maxDailyKeys ≤ cur ∨ batchSize = 0 then
    ⟨0, 0, cur⟩
  else
    let cbs := min batchSize remaining
    let ids := batch_ids w.maxDailyKeys cur cbs
    let batchData := ids.map (get_key_data w)
    let wr := if batchData.isEmpty then 0
      else write_batch o w.keyTtlSeconds batchData
    let rest := write_pipeline_batches o w batchSize (remaining - cbs)
      (cur + ids.length)
    ⟨wr + rest.written, rest.skipped, rest.cursor⟩
  termination_by remaining
  decreasing_by
    push_neg at h
    omega

/-! ### SimpleReader (simple_reader.py) -/

/-- Result of one read operation (the ReadResult dataclass), without the
wall-clock read_time field, which the embedding does not model. -/
structure ReadResult where
  keyId : Nat
  foundVersion : Option String
  valueSize : Nat
  success : Bool
deriving DecidableEq

/-- Fields of a SimpleReader instance read by the embedded operations. -/
structure ReaderConfig where
  maxDailyKeys : Nat
  primaryVersion : String
  fallbackVersion : String

/-- Truthiness of a store lookup result as the Python conditionals see
it: get_value returns None for an absent key, and an empty string is
falsy too, so a hit requires a present, non-empty value. -/
def truthy : Option String → Bool
  | none => false
  | some s => !s.isEmpty

/-- Byte length recorded for a hit: the utf-8 encoded length of the
value string. -/
def option_value_size : Option String → Nat
  | none => 0
  | some s => s.utf8ByteSize

/-- Embedding of SimpleReader.read_key_with_fallback (simple_reader.py
lines 61-109). lookup models redis_client.get_value: Except.error is a
raised exception (caught by the surrounding try/except and ignored),
Except.ok the returned value. The primary version is tried first; the
fallback namespace is consulted only when the primary value is falsy or
the primary lookup raised; both falsy gives a miss. -/
def read_key_with_fallback (cfg : ReaderConfig)
    (lookup : String → Except Unit (Option String)) (keyId : Nat) :
    ReadResult :=
  let missResult : ReadResult := ⟨keyId, none, 0, false⟩
  let fallbackKey := create_redis_key_simple keyId cfg.fallbackVersion
  let fallbackStep : ReadResult :=
    match lookup fallbackKey with
    | Except.ok v =>
      if truthy v then
        ⟨keyId, some cfg.fallbackVersion, option_value_size v, true⟩
      else missResult
    | Except.error _ => missResult
  let primaryKey := create_redis_key_simple keyId cfg.primaryVersion
  match lookup primaryKey with
  | Except.ok v =>
    if truthy v then
      ⟨keyId, some cfg.primaryVersion, option_value_size v, true⟩
    else fallbackStep
  | Except.error _ => fallbackStep

/-- Embedding of the per-pair classification inside
_read_batch_with_pipeline (lines 150-184): primary checked first, then
fallback, else cache miss. -/
def classify_pair (cfg : ReaderConfig) (keyId : Nat)
    (primaryResult fallbackResult : Option String) : ReadResult :=
  if truthy primaryResult then
    ⟨keyId, some cfg.primaryVersion, option_value_size primaryResult, true⟩
  else if truthy fallbackResult then
    ⟨keyId, some cfg.fallbackVersion, option_value_size fallbackResult, true⟩
  else ⟨keyId, none, 0, false⟩

/-- Pipelined GET commands queued by _read_batch_with_pipeline (lines
134-142): for each key id, in batch order, a primary-namespace GET
immediately followed by a fallback-namespace GET. -/
def pipeline_requests (cfg : ReaderConfig) (keyIds : List Nat) :
    List String :=
  keyIds.flatMap (fun keyId =>
    [create_redis_key_simple keyId cfg.primaryVersion,
     create_redis_key_simple keyId cfg.fallbackVersion])

/-- Embedding of _read_batch_with_pipeline (lines 123-191): when
pipe.execute() succeeds (pipeFails = false), the response list — the
store oracle applied to each queued GET — is consumed as ordered pairs
at positions (i * 2, i * 2 + 1); when it raises, every id of this batch
goes through read_key_with_fallback instead. -/
def read_batch_with_pipeline (cfg : ReaderConfig)
    (store : String → Option String) (pipeFails : Bool)
    (lookup : String → Except Unit (Option String)) (keyIds : List Nat) :
    List ReadResult :=
  if pipeFails then keyIds.map (read_key_with_fallback cfg lookup)
  else
    let pipelineResults := (pipeline_requests cfg keyIds).map store
    keyIds.enum.map (fun p =>
      classify_pair cfg p.2 (pipelineResults.getD (p.1 * 2) none)
        (pipelineResults.getD (p.1 * 2 + 1) none))

/-- Batch slicing of read_keys_pipeline_batch (lines 111-121): the id
list is processed in consecutive slices of batch_size. A batch_size of
zero makes the Python range() call raise; the embedding yields no
batches in that case. -/
def chunk_list (batchSize : Nat) : List Nat → List (List Nat)
  | [] => []
  | x :: xs =>
    if h : batchSize = 0 then []
    else (x :: xs).take batchSize
      :: chunk_list batchSize ((x :: xs).drop batchSize)
  termination_by l => l.length
  decreasing_by
    simp only [List.length_drop, List.length_cons]
    omega

/-- Embedding of SimpleReader.read_keys_pipeline_batch: the ids are
processed batch by batch, each batch independently through
_read_batch_with_pipeline; pipeFailsOn says which batches' pipeline
calls raise. -/
def read_keys_pipeline_batch (cfg : ReaderConfig)
    (store : String → Option String) (pipeFailsOn : List Nat → Bool)
    (lookup : String → Except Unit (Option String))
    (keyIds : List Nat) (batchSize : Nat) : List ReadResult :=
  ((chunk_list batchSize keyIds).map (fun batch =>
    read_batch_with_pipeline cfg store (pipeFailsOn batch) lookup
      batch)).flatten

/-- Aggregate counters of the ReadStats dataclass (total_time omitted,
not modelled). -/
structure ReadStats where
  totalReads : Nat
  successfulReads : Nat
  cacheMisses : Nat
  primaryHits : Nat
  fallbackHits : Nat
  totalDataBytes : Nat
deriving DecidableEq

/-- Embedding of SimpleReader._calculate_stats (lines 285-306): filter
the successful results, count misses as total minus successful, and
attribute hits by comparing found_version against the two version
tags. -/
def calculate_stats (cfg : ReaderConfig) (results : List ReadResult) :
    ReadStats :=
  let successfulResults := results.filter (fun r => r.success)
  { totalReads := results.length
    successfulReads := successfulResults.length
    cacheMisses := results.length - successfulResults.length
    primaryHits := (successfulResults.filter
      (fun r => r.foundVersion = some cfg.primaryVersion)).length
    fallbackHits := (successfulResults.filter
      (fun r => r.foundVersion = some cfg.fallbackVersion)).length
    totalDataBytes := (successfulResults.map (fun r => r.valueSize)).sum }

/-- One iteration of the per-result counting loop shared by
run_pipeline_benchmark (lines 332-342) and
run_multithreaded_pipeline_benchmark (lines 474-484): a success bumps
successful_reads and bytes and then exactly one of primary_hits (when
found_version equals the primary tag) or fallback_hits; a failure bumps
cache_misses. -/
def accumulate_stat (cfg : ReaderConfig) (stats : ReadStats)
    (result : ReadResult) : ReadStats :=
  if result.success then
    let stats1 := { stats with
      successfulReads := stats.successfulReads + 1,
      totalDataBytes := stats.totalDataBytes + result.valueSize }
    if result.foundVersion = some cfg.primaryVersion then
      { stats1 with primaryHits := stats1.primaryHits + 1 }
    else
      { stats1 with fallbackHits := stats1.fallbackHits + 1 }
  else
    { stats with cacheMisses := stats.cacheMisses + 1 }

/-- Statistics computed by the two pipelined benchmarks: counters start
at zero with total_reads = len(all_results), then the loop body runs
once per result. -/
def pipeline_stats (cfg : ReaderConfig) (results : List ReadResult) :
    ReadStats :=
  results.foldl (accumulate_stat cfg)
    { totalReads := results.length, successfulReads := 0, cacheMisses := 0,
      primaryHits := 0, fallbackHits := 0, totalDataBytes := 0 }

/-! ### Multi-threaded benchmark slicing
(SimpleReader.run_multithreaded_pipeline_benchmark, lines 408-431) -/

/-- Quotient reads_per_thread = total_reads // num_threads. -/
def reads_per_thread (totalReads numThreads : Nat) : Nat :=
  totalReads / numThreads

/-- Remainder remaining_reads = total_reads % num_threads. -/
def remaining_reads (totalReads numThreads : Nat) : Nat :=
  totalReads % numThreads

/-- Number of ids handed to 0-indexed thread i:
thread_reads = reads_per_thread + (1 if i < remaining_reads else 0). -/
def thread_reads (totalReads numThreads i : Nat) : Nat :=
  reads_per_thread totalReads numThreads +
    (if i < remaining_reads totalReads numThreads then 1 else 0)

/-- Value of the accumulated key_offset at which thread i's slice
starts. -/
def thread_offset (totalReads numThreads : Nat) : Nat → Nat
  | 0 => 0
  | i + 1 => thread_offset totalReads numThreads i
      + thread_reads totalReads numThreads i

/-- Slice all_key_ids[key_offset : key_offset + thread_reads] handed to
thread i. -/
def thread_slice (allKeyIds : List Nat) (totalReads numThreads i : Nat) :
    List Nat :=
  (allKeyIds.drop (thread_offset totalReads numThreads i)).take
    (thread_reads totalReads numThreads i)

/-- All per-thread slices, in thread order. -/
def thread_slices (allKeyIds : List Nat) (totalReads numThreads : Nat) :
    List (List Nat) :=
  (List.range numThreads).map (thread_slice allKeyIds totalReads numThreads)

/-- Modelled from the claim wording, for comparison: slicing by the same
division-with-remainder rule as the write partitioning, where every
thread gets exactly totalReads div numThreads ids and the whole
remainder is appended to the last slice. -/
def last_remainder_slices (allKeyIds : List Nat)
    (totalReads numThreads : Nat) : List (List Nat) :=
  (List.range numThreads).map (fun i =>
    let per := totalReads / numThreads
    let startIdx := i * per
    let len := if i = numThreads - 1 then per + totalReads % numThreads
      else per
    (allKeyIds.drop startIdx).take len)

/-! ### Multi-version import projection
(ParallelWriter.run_full_parallel_import, lines 208-215) -/

/-- Embedding of the projection block: when target_keys < 66000000,
estimated_66m_time = (66000000 * 2 * 0.95) / combined_rate / 3600
(printed as hours); otherwise no projection is produced. Rates and
durations are modelled as rationals. -/
def estimated_66m_time (targetKeys : Nat) (combinedRate : ℚ) : Option ℚ :=
  if targetKeys < 66000000 then
    some ((66000000 * 2 * (95 / 100)) / combinedRate / 3600)
  else none

/-- Modelled from the claim wording, for comparison: a projection that
is exactly hypothetical_total_keys divided by the measured combined
rate, with no other scaling factor. -/
def claimed_projection (hypotheticalTotalKeys : Nat) (combinedRate : ℚ) :
    ℚ :=
  (hypotheticalTotalKeys : ℚ) / combinedRate

/-- Sample store behaviour used by concrete instantiations: only the id
7 under version v22 holds a (non-empty) payload. -/
def sample_lookup : String → Except Unit (Option String) :=
  fun k => if k = "ip:v22:7" then Except.ok (some "payload")
    else Except.ok none

/-- Sample reader configured like the defaults of SimpleReader. -/
def sample_reader_config : ReaderConfig := ⟨200000, "v23", "v22"⟩

/-- Sample result produced by the sequential read against
sample_lookup. -/
def sample_read_result : ReadResult :=
  read_key_with_fallback sample_reader_config sample_lookup 7

/-- Helper: a pointwise-monotone chain of cut points is monotone from 0. -/
theorem chain_le_zero (o : Nat → Nat) :
    ∀ n : Nat, (∀ i, i < n → o i ≤ o (i + 1)) → o 0 ≤ o n := by
  intro n
  induction n with
  | zero => intro _; exact Nat.le_refl _
  | succ n ih =>
    intro h
    exact Nat.le_trans (ih fun i hi => h i (Nat.lt_succ_of_lt hi))
      (h n (Nat.lt_succ_self n))

/-- Helper: concatenating the intervals between successive monotone cut
points yields the single interval from the first cut point to the last. -/
theorem flatten_range_of_cuts (o : Nat → Nat) :
    ∀ n : Nat, (∀ i, i < n → o i ≤ o (i + 1)) →
      ((List.range n).map (fun i => List.range' (o i) (o (i + 1) - o i))).flatten
        = List.range' (o 0) (o n - o 0) := by
  intro n
  induction n with
  | zero => intro _; simp
  | succ n ih =>
    intro h
    have hmono : ∀ i, i < n → o i ≤ o (i + 1) :=
      fun i hi => h i (Nat.lt_succ_of_lt hi)
    have h0n : o 0 ≤ o n := chain_le_zero o n hmono
    have hnn : o n ≤ o (n + 1) := h n (Nat.lt_succ_self n)
    rw [List.range_succ, List.map_append, List.flatten_append, ih hmono]
    simp only [List.map_cons, List.map_nil, List.flatten_cons, List.flatten_nil,
      List.append_nil]
    have h1 : o 0 + (o n - o 0) = o n := by omega
    have h2 : o (n + 1) - o n + (o n - o 0) = o (n + 1) - o 0 := by omega
    have key := List.range'_append_1 (o 0) (o n - o 0) (o (n + 1) - o n)
    rw [h1, h2] at key
    exact key

/-- C1: for every totalKeys >= 1 and 1 <= numWorkers <= totalKeys, the
partition computed by run_parallel_import is a family of contiguous,
pairwise-adjacent ranges whose concatenated id lists are exactly
0, 1, ..., totalKeys - 1 in order — so the union is [0, totalKeys) with
each id covered exactly once and the remainder absorbed by the last range. -/
theorem run_parallel_import_partition_exact_cover
    (targetKeys numWriters : Nat)
    (h1 : 1 ≤ targetKeys) (h2 : 1 ≤ numWriters) (h3 : numWriters ≤ targetKeys) :
    ((writer_ranges targetKeys numWriters).map range_ids).flatten
        = List.range targetKeys ∧
    List.Chain' (fun r s => r.2 = s.1) (writer_ranges targetKeys numWriters) := by
  have hdm : numWriters * keys_per_writer targetKeys numWriters
      + partition_remainder targetKeys numWriters = targetKeys :=
    Nat.div_add_mod targetKeys numWriters
  set per := keys_per_writer targetKeys numWriters with hper
  set rem := partition_remainder targetKeys numWriters with hrem
  have hpred : (numWriters - 1) * per + per + rem = targetKeys := by
    have hsplit : numWriters * per = (numWriters - 1) * per + per := by
      have hw : numWriters = (numWriters - 1) + 1 := by omega
      calc numWriters * per = ((numWriters - 1) + 1) * per := by rw [← hw]
        _ = (numWriters - 1) * per + per := by rw [Nat.succ_mul]
    omega
  constructor
  · set o : Nat → Nat :=
      fun i => if i < numWriters then i * per else targetKeys with ho
    have hmono : ∀ i, i < numWriters → o i ≤ o (i + 1) := by
      intro i hi
      simp only [ho]
      by_cases hi1 : i + 1 < numWriters
      · simp only [hi, hi1, if_true]
        exact Nat.mul_le_mul_right per (Nat.le_succ i)
      · have heq : i = numWriters - 1 := by omega
        simp only [hi, hi1, if_true, if_false]
        calc i * per = (numWriters - 1) * per := by rw [heq]
          _ ≤ targetKeys := by omega
    have hmap : (writer_ranges targetKeys numWriters).map range_ids
        = (List.range numWriters).map
            (fun i => List.range' (o i) (o (i + 1) - o i)) := by
      unfold writer_ranges
      rw [List.map_map]
      apply List.map_congr_left
      intro i hi
      rw [List.mem_range] at hi
      show range_ids (writer_range targetKeys numWriters i)
          = List.range' (o i) (o (i + 1) - o i)
      unfold writer_range range_ids
      simp only [← hper, ← hrem, ho]
      by_cases hlast : i = numWriters - 1
      · have hi1 : ¬ (i + 1 < numWriters) := by omega
        simp only [hlast, if_true, hi, hi1, if_false]
        have hilt : numWriters - 1 < numWriters := by omega
        simp only [hilt, if_true]
        have hfalse : ¬ (numWriters - 1 + 1 < numWriters) := by omega
        simp only [hfalse, if_false]
        have hlen : targetKeys - (numWriters - 1) * per = per + rem := by omega
        have hadd : (numWriters - 1) * per + per + rem - (numWriters - 1) * per
            = per + rem := by omega
        rw [hadd, hlen]
      · have hi1 : i + 1 < numWriters := by omega
        simp only [hlast, if_false, hi, hi1, if_true]
        have hs : (i + 1) * per = i * per + per := Nat.succ_mul i per
        have hl : i * per + per - i * per = per := by omega
        have hl2 : (i + 1) * per - i * per = per := by omega
        rw [hl, hl2]
    rw [hmap, flatten_range_of_cuts o numWriters hmono]
    have h0 : o 0 = 0 := by
      have hb : o 0 = if 0 < numWriters then 0 * per else targetKeys := rfl
      rw [hb, if_pos (show 0 < numWriters from h2), Nat.zero_mul]
    have hn : o numWriters = targetKeys := by
      have hb : o numWriters =
          if numWriters < numWriters then numWriters * per else targetKeys := rfl
      rw [hb, if_neg (Nat.lt_irrefl numWriters)]
    rw [h0, hn, Nat.sub_zero, List.range_eq_range']
  · obtain ⟨k, rfl⟩ : ∃ k, numWriters = k + 1 := ⟨numWriters - 1, by omega⟩
    unfold writer_ranges
    rw [List.chain'_map]
    rw [show List.range (k + 1) = List.range (Nat.succ k) from rfl,
      List.chain'_range_succ]
    intro m hm
    unfold writer_range
    have hm1 : ¬ (m = k + 1 - 1) := by omega
    simp only [← hper, ← hrem, hm1, if_false]
    exact (Nat.succ_mul m per).symm

/-- Witness for C1 at targetKeys = 10, numWriters = 3: the ranges are
(0,3), (3,6), (6,10) and their ids concatenate to 0..9. -/
theorem run_parallel_import_partition_exact_cover_witness :
    1 ≤ 10 ∧ 1 ≤ 3 ∧ 3 ≤ 10 ∧
    (((writer_ranges 10 3).map range_ids).flatten = List.range 10 ∧
      List.Chain' (fun r s => r.2 = s.1) (writer_ranges 10 3)) :=
  ⟨by decide, by decide, by decide,
    run_parallel_import_partition_exact_cover 10 3 (by decide) (by decide)
      (by decide)⟩

/-- Helper: write_pipeline_batches in a stopping state returns (0, 0) and
leaves the cursor untouched. -/
theorem write_pipeline_batches_stop (o : WriteOracle) (w : FastWriterConfig)
    (batchSize remaining cur : Nat)
    (h : remaining = 0 ∨ w.maxDailyKeys ≤ cur ∨ batchSize = 0) :
    write_pipeline_batches o w batchSize remaining cur = ⟨0, 0, cur⟩ := by
  rw [write_pipeline_batches]
  exact dif_pos h

/-- Helper: one unfolding of the outer loop of write_pipeline_batches in a
non-stopping state. -/
theorem write_pipeline_batches_step (o : WriteOracle) (w : FastWriterConfig)
    (batchSize remaining cur : Nat)
    (h : ¬(remaining = 0 ∨ w.maxDailyKeys ≤ cur ∨ batchSize = 0)) :
    write_pipeline_batches o w batchSize remaining cur =
      ⟨(if ((batch_ids w.maxDailyKeys cur (min batchSize remaining)).map
            (get_key_data w)).isEmpty then 0
        else write_batch o w.keyTtlSeconds
          ((batch_ids w.maxDailyKeys cur (min batchSize remaining)).map
            (get_key_data w))) +
        (write_pipeline_batches o w batchSize (remaining - min batchSize remaining)
          (cur + (batch_ids w.maxDailyKeys cur (min batchSize remaining)).length)).written,
       (write_pipeline_batches o w batchSize (remaining - min batchSize remaining)
          (cur + (batch_ids w.maxDailyKeys cur (min batchSize remaining)).length)).skipped,
       (write_pipeline_batches o w batchSize (remaining - min batchSize remaining)
          (cur + (batch_ids w.maxDailyKeys cur (min batchSize remaining)).length)).cursor⟩ := by
  rw [write_pipeline_batches]
  rw [dif_neg h]

/-- C4: across any call to write_pipeline_batches the cursor
current_key_id is monotonically non-decreasing; from any state with
current_key_id at most max_daily_keys the call never leaves the cursor
above max_daily_keys; and once the cursor has reached max_daily_keys
the call consumes no further ids at all. -/
theorem write_pipeline_batches_cursor_bound (o : WriteOracle)
    (w : FastWriterConfig) (batchSize : Nat) :
    ∀ remaining cur,
      cur ≤ (write_pipeline_batches o w batchSize remaining cur).cursor ∧
      (cur ≤ w.maxDailyKeys →
        (write_pipeline_batches o w batchSize remaining cur).cursor
          ≤ w.maxDailyKeys) ∧
      (w.maxDailyKeys ≤ cur →
        write_pipeline_batches o w batchSize remaining cur = ⟨0, 0, cur⟩) := by
  intro remaining
  induction remaining using Nat.strong_induction_on with
  | _ remaining ih =>
    intro cur
    by_cases h : remaining = 0 ∨ w.maxDailyKeys ≤ cur ∨ batchSize = 0
    · rw [write_pipeline_batches_stop o w batchSize remaining cur h]
      exact ⟨Nat.le_refl cur, fun h2 => h2, fun _ => rfl⟩
    · rw [write_pipeline_batches_step o w batchSize remaining cur h]
      push_neg at h
      obtain ⟨h1, h2, h3⟩ := h
      have hlen : (batch_ids w.maxDailyKeys cur (min batchSize remaining)).length
          = min (min batchSize remaining) (w.maxDailyKeys - cur) := by
        simp [batch_ids]
      have hdec : remaining - min batchSize remaining < remaining := by omega
      have ihr := ih (remaining - min batchSize remaining) hdec
        (cur + (batch_ids w.maxDailyKeys cur (min batchSize remaining)).length)
      refine ⟨?_, ?_, ?_⟩
      · exact Nat.le_trans (Nat.le_add_right cur _) ihr.1
      · intro hK
        apply ihr.2.1
        omega
      · intro hK
        omega

/-- Witness for C4 at batchSize = 50, remaining = 100, cur = 7 on a
writer with max_daily_keys = 10. -/
theorem write_pipeline_batches_cursor_bound_witness :
    7 ≤ (write_pipeline_batches
        ⟨fun _ _ => some [], fun _ _ _ => some true⟩
        ⟨10, 1 / 20, "v25", fun _ => "sample", 259200⟩ 50 100 7).cursor ∧
      (7 ≤ 10 → (write_pipeline_batches
        ⟨fun _ _ => some [], fun _ _ _ => some true⟩
        ⟨10, 1 / 20, "v25", fun _ => "sample", 259200⟩ 50 100 7).cursor ≤ 10) ∧
      (10 ≤ 7 → write_pipeline_batches
        ⟨fun _ _ => some [], fun _ _ _ => some true⟩
        ⟨10, 1 / 20, "v25", fun _ => "sample", 259200⟩ 50 100 7 = ⟨0, 0, 7⟩) :=
  write_pipeline_batches_cursor_bound
    ⟨fun _ _ => some [], fun _ _ _ => some true⟩
    ⟨10, 1 / 20, "v25", fun _ => "sample", 259200⟩ 50 100 7

/-- C7: when the pipelined batch call raises as a whole, every key of
that batch is re-issued as exactly one individual write, in batch order
and regardless of the individual outcomes; a failing individual write
only loses its own key — the written count is exactly the number of
batch keys whose single individual attempt returned success — and no
key is attempted beyond the one pipeline-then-individual fallback. -/
theorem write_batch_fallback_policy (o : WriteOracle) (ttl : Nat)
    (batchData : List (String × String))
    (hfail : o.pipelineResult ttl batchData = none) :
    (fallback_individual_writes o ttl batchData).2 = batchData.map Prod.fst ∧
    write_batch o ttl batchData =
      (batchData.filter
        (fun kv => o.individualWrite kv.1 kv.2 ttl = some true)).length := by
  have hkeys : ∀ l : List (String × String),
      (fallback_individual_writes o ttl l).2 = l.map Prod.fst := by
    intro l
    induction l with
    | nil => rfl
    | cons kv rest ih =>
      obtain ⟨k, v⟩ := kv
      unfold fallback_individual_writes
      cases h : o.individualWrite k v ttl with
      | none => simpa [h] using ih
      | some b =>
        cases b with
        | true => simpa [h] using ih
        | false => simpa [h] using ih
  have hcount : ∀ l : List (String × String),
      (fallback_individual_writes o ttl l).1 =
        (l.filter
          (fun kv => o.individualWrite kv.1 kv.2 ttl = some true)).length := by
    intro l
    induction l with
    | nil => rfl
    | cons kv rest ih =>
      obtain ⟨k, v⟩ := kv
      unfold fallback_individual_writes
      rw [List.filter_cons]
      cases h : o.individualWrite k v ttl with
      | none =>
        have hne : ¬(o.individualWrite k v ttl = some true) := by simp [h]
        simpa [h, hne] using ih
      | some b =>
        cases b with
        | true => simpa [h] using ih
        | false =>
          have hne : ¬(o.individualWrite k v ttl = some true) := by simp [h]
          simpa [h, hne] using ih
  refine ⟨hkeys batchData, ?_⟩
  unfold write_batch
  rw [hfail]
  exact hcount batchData

/-- Witness for C7 on a three-key batch whose pipeline call raises and
whose middle individual write fails. -/
theorem write_batch_fallback_policy_witness :
    (WriteOracle.mk (fun _ _ => none)
        (fun k _ _ => some (k == "ip:v25:0"))).pipelineResult 259200
        [("ip:v25:0", "a"), ("ip:v25:1", "b"), ("ip:v25:2", "c")] = none ∧
    ((fallback_individual_writes
        (WriteOracle.mk (fun _ _ => none) (fun k _ _ => some (k == "ip:v25:0")))
        259200
        [("ip:v25:0", "a"), ("ip:v25:1", "b"), ("ip:v25:2", "c")]).2
        = [("ip:v25:0", "a"), ("ip:v25:1", "b"), ("ip:v25:2", "c")].map Prod.fst ∧
      write_batch
        (WriteOracle.mk (fun _ _ => none) (fun k _ _ => some (k == "ip:v25:0")))
        259200
        [("ip:v25:0", "a"), ("ip:v25:1", "b"), ("ip:v25:2", "c")]
        = ([("ip:v25:0", "a"), ("ip:v25:1", "b"), ("ip:v25:2", "c")].filter
            (fun kv => (WriteOracle.mk (fun _ _ => none)
              (fun k _ _ => some (k == "ip:v25:0"))).individualWrite
                kv.1 kv.2 259200 = some true)).length) :=
  ⟨rfl, write_batch_fallback_policy _ 259200 _ rfl⟩

/-- C9: the record payload chosen for a key id is cycled modulo the
fixed sample-set size of 100: the value component of get_key_data is
the same at id, id mod 100 and id + 100, while the key component is
built from the id itself. -/
theorem get_key_data_payload_cycles (w : FastWriterConfig) (keyId : Nat) :
    (get_key_data w keyId).2 = (get_key_data w (keyId % 100)).2 ∧
    (get_key_data w (keyId + 100)).2 = (get_key_data w keyId).2 ∧
    (get_key_data w keyId).1 = create_redis_key_simple keyId w.version := by
  refine ⟨?_, ?_, rfl⟩
  · show w.sampleKeys (keyId % 100) = w.sampleKeys (keyId % 100 % 100)
    have h : keyId % 100 % 100 = keyId % 100 := by omega
    rw [h]
  · show w.sampleKeys ((keyId + 100) % 100) = w.sampleKeys (keyId % 100)
    have h : (keyId + 100) % 100 = keyId % 100 := by omega
    rw [h]

/-- C10: the skip-write simulation is dead code. Every call of
write_pipeline_batches returns skipped = 0, so keys_skipped — the sum of
the skipped components over the calls of any run — stays 0; and the
call result does not depend on skip_probability: two configurations
agreeing on every other field produce identical results. -/
theorem write_pipeline_batches_skip_dead_code (o : WriteOracle)
    (batchSize : Nat) :
    (∀ (w : FastWriterConfig) (remaining cur : Nat),
      (write_pipeline_batches o w batchSize remaining cur).skipped = 0) ∧
    (∀ (w w' : FastWriterConfig), w.maxDailyKeys = w'.maxDailyKeys →
      w.version = w'.version → w.sampleKeys = w'.sampleKeys →
      w.keyTtlSeconds = w'.keyTtlSeconds →
      ∀ remaining cur, write_pipeline_batches o w batchSize remaining cur
        = write_pipeline_batches o w' batchSize remaining cur) ∧
    (∀ rs : List WriteCallResult,
      (∀ r ∈ rs, ∃ (w : FastWriterConfig) (remaining cur : Nat),
        r = write_pipeline_batches o w batchSize remaining cur) →
      (rs.map WriteCallResult.skipped).sum = 0) := by
  have hskip : ∀ (w : FastWriterConfig) (remaining cur : Nat),
      (write_pipeline_batches o w batchSize remaining cur).skipped = 0 := by
    intro w remaining
    induction remaining using Nat.strong_induction_on with
    | _ remaining ih =>
      intro cur
      by_cases h : remaining = 0 ∨ w.maxDailyKeys ≤ cur ∨ batchSize = 0
      · rw [write_pipeline_batches_stop o w batchSize remaining cur h]
      · rw [write_pipeline_batches_step o w batchSize remaining cur h]
        have hdec : remaining - min batchSize remaining < remaining := by
          push_neg at h
          omega
        exact ih _ hdec _
  refine ⟨hskip, ?_, ?_⟩
  · intro w w' hmax hver hsk httl remaining
    induction remaining using Nat.strong_induction_on with
    | _ remaining ih =>
      intro cur
      by_cases h : remaining = 0 ∨ w.maxDailyKeys ≤ cur ∨ batchSize = 0
      · have h' : remaining = 0 ∨ w'.maxDailyKeys ≤ cur ∨ batchSize = 0 := by
          rw [← hmax]
          exact h
        rw [write_pipeline_batches_stop o w batchSize remaining cur h,
          write_pipeline_batches_stop o w' batchSize remaining cur h']
      · have h' : ¬(remaining = 0 ∨ w'.maxDailyKeys ≤ cur ∨ batchSize = 0) := by
          rw [← hmax]
          exact h
        rw [write_pipeline_batches_step o w batchSize remaining cur h,
          write_pipeline_batches_step o w' batchSize remaining cur h']
        have hgkd : get_key_data w' = get_key_data w := by
          funext keyId
          unfold get_key_data
          rw [← hver, ← hsk]
        rw [← hmax, hgkd, ← httl]
        have hdec : remaining - min batchSize remaining < remaining := by
          push_neg at h
          omega
        rw [ih _ hdec]
  · intro rs hrs
    induction rs with
    | nil => rfl
    | cons r rest ih =>
      obtain ⟨w, remaining, cur, heq⟩ := hrs r (List.mem_cons_self r rest)
      have hrest := ih fun x hx => hrs x (List.mem_cons_of_mem r hx)
      simp only [List.map_cons, List.sum_cons, hrest, heq, hskip]

/-- Witness for C10 on a concrete one-call run list, discharging the
production hypothesis with an explicit writer state. -/
theorem write_pipeline_batches_skip_dead_code_witness :
    (∀ (w : FastWriterConfig) (remaining cur : Nat),
      (write_pipeline_batches ⟨fun _ _ => some [], fun _ _ _ => some true⟩
        w 50 remaining cur).skipped = 0) ∧
    (∀ (w w' : FastWriterConfig), w.maxDailyKeys = w'.maxDailyKeys →
      w.version = w'.version → w.sampleKeys = w'.sampleKeys →
      w.keyTtlSeconds = w'.keyTtlSeconds →
      ∀ remaining cur,
        write_pipeline_batches ⟨fun _ _ => some [], fun _ _ _ => some true⟩
            w 50 remaining cur
          = write_pipeline_batches ⟨fun _ _ => some [], fun _ _ _ => some true⟩
            w' 50 remaining cur) ∧
    (∀ rs : List WriteCallResult,
      (∀ r ∈ rs, ∃ (w : FastWriterConfig) (remaining cur : Nat),
        r = write_pipeline_batches ⟨fun _ _ => some [], fun _ _ _ => some true⟩
          w 50 remaining cur) →
      (rs.map WriteCallResult.skipped).sum = 0) :=
  write_pipeline_batches_skip_dead_code
    ⟨fun _ _ => some [], fun _ _ _ => some true⟩ 50

/-- Helper: a truthy primary value short-circuits the sequential read
to a primary-tier hit, never consulting the fallback key. -/
theorem read_key_with_fallback_primary_hit (cfg : ReaderConfig)
    (lookup : String → Except Unit (Option String)) (keyId : Nat)
    (v : Option String)
    (hp : lookup (create_redis_key_simple keyId cfg.primaryVersion)
      = Except.ok v) (hv : truthy v = true) :
    read_key_with_fallback cfg lookup keyId
      = ⟨keyId, some cfg.primaryVersion, option_value_size v, true⟩ := by
  unfold read_key_with_fallback
  simp only [hp, hv, if_true]

/-- Helper: when every primary outcome is falsy (absent, empty, or the
lookup raised), a truthy fallback value gives a fallback-tier hit. -/
theorem read_key_with_fallback_fallback_hit (cfg : ReaderConfig)
    (lookup : String → Except Unit (Option String)) (keyId : Nat)
    (hnp : ∀ v, lookup (create_redis_key_simple keyId cfg.primaryVersion)
      = Except.ok v → truthy v = false)
    (w : Option String)
    (hf : lookup (create_redis_key_simple keyId cfg.fallbackVersion)
      = Except.ok w) (hw : truthy w = true) :
    read_key_with_fallback cfg lookup keyId
      = ⟨keyId, some cfg.fallbackVersion, option_value_size w, true⟩ := by
  unfold read_key_with_fallback
  cases hp : lookup (create_redis_key_simple keyId cfg.primaryVersion) with
  | ok v => simp only [hp, hnp v hp, hf, hw, Bool.false_eq_true, if_false,
      if_true]
  | error e => simp only [hp, hf, hw, if_true]

/-- Helper: when every outcome under both namespaces is falsy, the
sequential read reports a miss. -/
theorem read_key_with_fallback_miss (cfg : ReaderConfig)
    (lookup : String → Except Unit (Option String)) (keyId : Nat)
    (hnp : ∀ v, lookup (create_redis_key_simple keyId cfg.primaryVersion)
      = Except.ok v → truthy v = false)
    (hnf : ∀ w, lookup (create_redis_key_simple keyId cfg.fallbackVersion)
      = Except.ok w → truthy w = false) :
    read_key_with_fallback cfg lookup keyId = ⟨keyId, none, 0, false⟩ := by
  unfold read_key_with_fallback
  cases hp : lookup (create_redis_key_simple keyId cfg.primaryVersion) with
  | ok v =>
    cases hf : lookup (create_redis_key_simple keyId cfg.fallbackVersion) with
    | ok w => simp only [hp, hnp v hp, hf, hnf w hf, Bool.false_eq_true,
        if_false]
    | error e => simp only [hp, hnp v hp, hf, Bool.false_eq_true, if_false]
  | error e =>
    cases hf : lookup (create_redis_key_simple keyId cfg.fallbackVersion) with
    | ok w => simp only [hp, hf, hnf w hf, Bool.false_eq_true, if_false]
    | error e2 => simp only [hp, hf]

/-- Helper: the tier reported by the sequential read is always one of
primary, fallback or none, and a success carries one of the two
version tags. -/
theorem read_key_with_fallback_tier (cfg : ReaderConfig)
    (lookup : String → Except Unit (Option String)) (keyId : Nat) :
    (read_key_with_fallback cfg lookup keyId).success = true →
    (read_key_with_fallback cfg lookup keyId).foundVersion
        = some cfg.primaryVersion ∨
      (read_key_with_fallback cfg lookup keyId).foundVersion
        = some cfg.fallbackVersion := by
  unfold read_key_with_fallback
  cases hp : lookup (create_redis_key_simple keyId cfg.primaryVersion) with
  | ok v =>
    by_cases hv : truthy v = true
    · simp [hp, hv]
    · cases hf : lookup (create_redis_key_simple keyId cfg.fallbackVersion) with
      | ok w =>
        by_cases hw : truthy w = true
        · simp [hp, hf, hv, hw]
        · simp [hp, hf, hv, hw]
      | error e => simp [hp, hf, hv]
  | error e =>
    cases hf : lookup (create_redis_key_simple keyId cfg.fallbackVersion) with
    | ok w =>
      by_cases hw : truthy w = true
      · simp [hp, hf, hw]
      · simp [hp, hf, hw]
    | error e2 => simp [hp, hf]

/-- C2: a lookup reports tier primary exactly when the primary-namespace
lookup returned a non-empty value; the fallback namespace decides the
outcome only when the primary value was falsy or the primary lookup
raised; presence under both namespaces yields a primary-tier hit,
presence only under the fallback namespace a fallback-tier hit,
presence under neither a miss — for the sequential read and for the
pipelined per-pair classification alike. -/
theorem fallback_priority_never_reversed (cfg : ReaderConfig)
    (hne : cfg.primaryVersion ≠ cfg.fallbackVersion)
    (lookup : String → Except Unit (Option String)) (keyId : Nat) :
    ((read_key_with_fallback cfg lookup keyId).foundVersion
        = some cfg.primaryVersion ↔
      ∃ v, lookup (create_redis_key_simple keyId cfg.primaryVersion)
          = Except.ok v ∧ truthy v = true) ∧
    (∀ v, lookup (create_redis_key_simple keyId cfg.primaryVersion)
        = Except.ok v → truthy v = true →
      read_key_with_fallback cfg lookup keyId
        = ⟨keyId, some cfg.primaryVersion, option_value_size v, true⟩) ∧
    (∀ w, lookup (create_redis_key_simple keyId cfg.fallbackVersion)
        = Except.ok w → truthy w = true →
      (∀ v, lookup (create_redis_key_simple keyId cfg.primaryVersion)
        = Except.ok v → truthy v = false) →
      read_key_with_fallback cfg lookup keyId
        = ⟨keyId, some cfg.fallbackVersion, option_value_size w, true⟩) ∧
    ((∀ v, lookup (create_redis_key_simple keyId cfg.primaryVersion)
        = Except.ok v → truthy v = false) →
      (∀ w, lookup (create_redis_key_simple keyId cfg.fallbackVersion)
        = Except.ok w → truthy w = false) →
      read_key_with_fallback cfg lookup keyId = ⟨keyId, none, 0, false⟩) ∧
    (∀ p f : Option String,
      ((classify_pair cfg keyId p f).foundVersion = some cfg.primaryVersion
        ↔ truthy p = true) ∧
      (truthy p = true → classify_pair cfg keyId p f
        = ⟨keyId, some cfg.primaryVersion, option_value_size p, true⟩) ∧
      (truthy p = false → truthy f = true → classify_pair cfg keyId p f
        = ⟨keyId, some cfg.fallbackVersion, option_value_size f, true⟩) ∧
      (truthy p = false → truthy f = false →
        classify_pair cfg keyId p f = ⟨keyId, none, 0, false⟩)) := by
  refine ⟨?_, ?_, ?_, ?_, ?_⟩
  · constructor
    · intro hfound
      by_cases hex : ∃ v,
          lookup (create_redis_key_simple keyId cfg.primaryVersion)
            = Except.ok v ∧ truthy v = true
      · exact hex
      · exfalso
        push_neg at hex
        have hnp : ∀ v,
            lookup (create_redis_key_simple keyId cfg.primaryVersion)
              = Except.ok v → truthy v = false := by
          intro v hv
          cases htv : truthy v with
          | false => rfl
          | true => exact absurd htv (hex v hv)
        by_cases hfb : ∃ w,
            lookup (create_redis_key_simple keyId cfg.fallbackVersion)
              = Except.ok w ∧ truthy w = true
        · obtain ⟨w, hf, hw⟩ := hfb
          rw [read_key_with_fallback_fallback_hit cfg lookup keyId hnp w hf hw]
            at hfound
          exact hne (Option.some_injective _ hfound).symm
        · push_neg at hfb
          have hnf : ∀ w,
              lookup (create_redis_key_simple keyId cfg.fallbackVersion)
                = Except.ok w → truthy w = false := by
            intro w hw
            cases htw : truthy w with
            | false => rfl
            | true => exact absurd htw (hfb w hw)
          rw [read_key_with_fallback_miss cfg lookup keyId hnp hnf] at hfound
          exact Option.noConfusion hfound
    · rintro ⟨v, hp, hv⟩
      rw [read_key_with_fallback_primary_hit cfg lookup keyId v hp hv]
  · intro v hp hv
    exact read_key_with_fallback_primary_hit cfg lookup keyId v hp hv
  · intro w hf hw hnp
    exact read_key_with_fallback_fallback_hit cfg lookup keyId hnp w hf hw
  · intro hnp hnf
    exact read_key_with_fallback_miss cfg lookup keyId hnp hnf
  · intro p f
    refine ⟨?_, ?_, ?_, ?_⟩
    · constructor
      · intro hfound
        by_cases hp : truthy p = true
        · exact hp
        · exfalso
          unfold classify_pair at hfound
          by_cases hf : truthy f = true
          · simp only [Bool.not_eq_true] at hp
            simp only [hp, Bool.false_eq_true, if_false, hf, if_true]
              at hfound
            exact hne (Option.some_injective _ hfound).symm
          · simp only [Bool.not_eq_true] at hp hf
            simp only [hp, hf, Bool.false_eq_true, if_false] at hfound
            exact Option.noConfusion hfound
      · intro hp
        unfold classify_pair
        simp only [hp, if_true]
    · intro hp
      unfold classify_pair
      simp only [hp, if_true]
    · intro hp hf
      unfold classify_pair
      simp only [hp, hf, Bool.false_eq_true, if_false, if_true]
    · intro hp hf
      unfold classify_pair
      simp only [hp, hf, Bool.false_eq_true, if_false]

/-- Witness for C2 on concrete versions v23/v22 and a lookup answering
only the fallback key for id 7. -/
theorem fallback_priority_never_reversed_witness :
    ("v23" : String) ≠ "v22" ∧
    ((read_key_with_fallback (ReaderConfig.mk 200000 "v23" "v22")
        sample_lookup 7).foundVersion = some "v23" ↔
      ∃ v, sample_lookup (create_redis_key_simple 7 "v23") = Except.ok v
        ∧ truthy v = true) :=
  ⟨by decide,
    (fallback_priority_never_reversed (ReaderConfig.mk 200000 "v23" "v22")
      (by decide) sample_lookup 7).1⟩

/-- Helper: field relations of one iteration of the shared counting
loop: each result adds one read, a success feeds exactly one of the two
hit counters, a failure feeds the miss counter. -/
theorem accumulate_stat_fields (cfg : ReaderConfig) (st : ReadStats)
    (r : ReadResult) :
    (accumulate_stat cfg st r).successfulReads
        + (accumulate_stat cfg st r).cacheMisses
      = st.successfulReads + st.cacheMisses + 1 ∧
    (accumulate_stat cfg st r).primaryHits
        + (accumulate_stat cfg st r).fallbackHits + st.successfulReads
      = (accumulate_stat cfg st r).successfulReads
        + st.primaryHits + st.fallbackHits ∧
    (accumulate_stat cfg st r).totalReads = st.totalReads := by
  unfold accumulate_stat
  by_cases hs : r.success = true
  · by_cases hv : r.foundVersion = some cfg.primaryVersion
    · simp [hs, hv]
      try omega
    · simp [hs, hv]
      try omega
  · simp [hs]
    try omega

/-- Helper: invariant of the counting loop of the pipelined benchmarks,
folded from an arbitrary starting state. -/
theorem pipeline_stats_loop_invariant (cfg : ReaderConfig) :
    ∀ (results : List ReadResult) (st : ReadStats),
      ((results.foldl (accumulate_stat cfg) st).successfulReads
          + (results.foldl (accumulate_stat cfg) st).cacheMisses
        = st.successfulReads + st.cacheMisses + results.length) ∧
      ((results.foldl (accumulate_stat cfg) st).primaryHits
          + (results.foldl (accumulate_stat cfg) st).fallbackHits
          + st.successfulReads
        = (results.foldl (accumulate_stat cfg) st).successfulReads
          + st.primaryHits + st.fallbackHits) ∧
      (results.foldl (accumulate_stat cfg) st).totalReads = st.totalReads := by
  intro results
  induction results with
  | nil =>
    intro st
    refine ⟨by simp, by simp; omega, rfl⟩
  | cons r rest ih =>
    intro st
    rw [List.foldl_cons]
    have hmid := accumulate_stat_fields cfg st r
    have hrest := ih (accumulate_stat cfg st r)
    refine ⟨?_, ?_, ?_⟩
    · have h1 := hrest.1
      have h2 := hmid.1
      simp only [List.length_cons]
      omega
    · have h1 := hrest.2.1
      have h2 := hmid.2.1
      omega
    · rw [hrest.2.2, hmid.2.2]

/-- Helper: two mutually exclusive and jointly exhaustive predicates
split a list's length between their filters. -/
theorem length_filter_partition {α : Type} (l : List α) (p q : α → Bool)
    (h : ∀ x ∈ l, (p x = true ∨ q x = true) ∧ ¬(p x = true ∧ q x = true)) :
    (l.filter p).length + (l.filter q).length = l.length := by
  induction l with
  | nil => rfl
  | cons a rest ih =>
    have ha := h a (List.mem_cons_self a rest)
    have hrest := ih (fun x hx => h x (List.mem_cons_of_mem a hx))
    rw [List.filter_cons, List.filter_cons]
    cases hpa : p a with
    | true =>
      have hqa : q a = false := by
        cases hqb : q a with
        | false => rfl
        | true => exact absurd ⟨hpa, hqb⟩ ha.2
      simp only [hpa, hqa, if_true, Bool.false_eq_true, if_false,
        List.length_cons]
      omega
    | false =>
      have hqa : q a = true := by
        rcases ha.1 with h1 | h1
        · rw [hpa] at h1
          exact absurd h1 (by simp)
        · exact h1
      simp only [hpa, hqa, if_true, Bool.false_eq_true, if_false,
        List.length_cons]
      omega

/-- C3: counter conservation. For results produced by the sequential
strategy, _calculate_stats satisfies successful + misses = total and
primary + fallback = successful; the counting loop shared by
run_pipeline_benchmark and run_multithreaded_pipeline_benchmark
satisfies both equations for every result list. -/
theorem read_stats_counter_conservation (cfg : ReaderConfig)
    (hne : cfg.primaryVersion ≠ cfg.fallbackVersion) :
    (∀ results : List ReadResult,
      (∀ r ∈ results, ∃ lookup keyId,
        r = read_key_with_fallback cfg lookup keyId) →
      (calculate_stats cfg results).successfulReads
          + (calculate_stats cfg results).cacheMisses
        = (calculate_stats cfg results).totalReads ∧
      (calculate_stats cfg results).primaryHits
          + (calculate_stats cfg results).fallbackHits
        = (calculate_stats cfg results).successfulReads) ∧
    (∀ results : List ReadResult,
      (pipeline_stats cfg results).successfulReads
          + (pipeline_stats cfg results).cacheMisses
        = (pipeline_stats cfg results).totalReads ∧
      (pipeline_stats cfg results).primaryHits
          + (pipeline_stats cfg results).fallbackHits
        = (pipeline_stats cfg results).successfulReads) := by
  constructor
  · intro results hprod
    constructor
    · unfold calculate_stats
      have hle := List.length_filter_le (fun r => r.success) results
      simp only []
      omega
    · unfold calculate_stats
      simp only []
      apply length_filter_partition
      intro x hx
      rw [List.mem_filter] at hx
      obtain ⟨hmem, hsucc⟩ := hx
      obtain ⟨lookup, keyId, rfl⟩ := hprod x hmem
      have htier := read_key_with_fallback_tier cfg lookup keyId hsucc
      refine ⟨?_, ?_⟩
      · rcases htier with h | h
        · exact Or.inl (by simp [h])
        · exact Or.inr (by simp [h])
      · rintro ⟨h1, h2⟩
        rw [decide_eq_true_eq] at h1 h2
        rw [h1] at h2
        exact hne (Option.some_injective _ h2)
  · intro results
    have h := pipeline_stats_loop_invariant cfg results
      { totalReads := results.length, successfulReads := 0, cacheMisses := 0,
        primaryHits := 0, fallbackHits := 0, totalDataBytes := 0 }
    unfold pipeline_stats
    refine ⟨?_, ?_⟩
    · have h1 := h.1
      have h3 := h.2.2
      simp only [] at h1 h3
      omega
    · have h2 := h.2.1
      simp only [] at h2
      omega

/-- Witness for C3 on the v23/v22 configuration and a singleton result
list produced by the sequential read. -/
theorem read_stats_counter_conservation_witness :
    sample_reader_config.primaryVersion
        ≠ sample_reader_config.fallbackVersion ∧
    ((calculate_stats sample_reader_config [sample_read_result]).successfulReads
        + (calculate_stats sample_reader_config
            [sample_read_result]).cacheMisses
      = (calculate_stats sample_reader_config [sample_read_result]).totalReads ∧
    (calculate_stats sample_reader_config [sample_read_result]).primaryHits
        + (calculate_stats sample_reader_config
            [sample_read_result]).fallbackHits
      = (calculate_stats sample_reader_config
          [sample_read_result]).successfulReads) ∧
    ((pipeline_stats sample_reader_config [sample_read_result]).successfulReads
        + (pipeline_stats sample_reader_config
            [sample_read_result]).cacheMisses
      = (pipeline_stats sample_reader_config [sample_read_result]).totalReads ∧
    (pipeline_stats sample_reader_config [sample_read_result]).primaryHits
        + (pipeline_stats sample_reader_config
            [sample_read_result]).fallbackHits
      = (pipeline_stats sample_reader_config
          [sample_read_result]).successfulReads) :=
  ⟨by decide,
    (read_stats_counter_conservation sample_reader_config (by decide)).1
      [sample_read_result]
      (fun r hr => ⟨sample_lookup, 7, by
        rw [List.mem_singleton] at hr
        rw [hr]
        rfl⟩),
    (read_stats_counter_conservation sample_reader_config (by decide)).2
      [sample_read_result]⟩

/-- Helper: the pipelined request list is pk, fk pairs in batch order. -/
theorem pipeline_requests_cons (cfg : ReaderConfig) (x : Nat)
    (xs : List Nat) :
    pipeline_requests cfg (x :: xs)
      = create_redis_key_simple x cfg.primaryVersion
        :: create_redis_key_simple x cfg.fallbackVersion
        :: pipeline_requests cfg xs := rfl

/-- Helper: the request list has two GETs per id, the primary key at
position i * 2 and the fallback key at position i * 2 + 1. -/
theorem pipeline_requests_layout (cfg : ReaderConfig) :
    ∀ keyIds : List Nat,
      (pipeline_requests cfg keyIds).length = 2 * keyIds.length ∧
      ∀ i, i < keyIds.length →
        (pipeline_requests cfg keyIds).getD (i * 2) ""
            = create_redis_key_simple (keyIds.getD i 0) cfg.primaryVersion ∧
        (pipeline_requests cfg keyIds).getD (i * 2 + 1) ""
            = create_redis_key_simple (keyIds.getD i 0) cfg.fallbackVersion := by
  intro keyIds
  induction keyIds with
  | nil => exact ⟨rfl, fun i hi => absurd hi (Nat.not_lt_zero i)⟩
  | cons x xs ih =>
    refine ⟨?_, ?_⟩
    · rw [pipeline_requests_cons]
      simp only [List.length_cons, ih.1]
      omega
    · intro i hi
      cases i with
      | zero => rw [pipeline_requests_cons]; exact ⟨rfl, rfl⟩
      | succ j =>
        have hj : j < xs.length := by simpa using hi
        have h2 : (j + 1) * 2 = j * 2 + 1 + 1 := by ring
        rw [pipeline_requests_cons, h2]
        simp only [List.getD_cons_succ]
        exact ih.2 j hj

/-- Helper: the response list, read at positions i * 2 and i * 2 + 1,
carries the stored values under the two namespaces of the i-th id. -/
theorem pipeline_responses_getD (cfg : ReaderConfig)
    (store : String → Option String) :
    ∀ (keyIds : List Nat) (i : Nat), i < keyIds.length →
      ((pipeline_requests cfg keyIds).map store).getD (i * 2) none
          = store (create_redis_key_simple (keyIds.getD i 0)
              cfg.primaryVersion) ∧
      ((pipeline_requests cfg keyIds).map store).getD (i * 2 + 1) none
          = store (create_redis_key_simple (keyIds.getD i 0)
              cfg.fallbackVersion) := by
  intro keyIds
  induction keyIds with
  | nil => exact fun i hi => absurd hi (Nat.not_lt_zero i)
  | cons x xs ih =>
    intro i hi
    have hmap : (pipeline_requests cfg (x :: xs)).map store
        = store (create_redis_key_simple x cfg.primaryVersion)
          :: store (create_redis_key_simple x cfg.fallbackVersion)
          :: (pipeline_requests cfg xs).map store := rfl
    cases i with
    | zero => rw [hmap]; exact ⟨rfl, rfl⟩
    | succ j =>
      have hj : j < xs.length := by simpa using hi
      have h2 : (j + 1) * 2 = j * 2 + 1 + 1 := by ring
      rw [hmap, h2]
      simp only [List.getD_cons_succ]
      exact ih j hj

/-- Helper: when the pipelined call succeeds, the batch's results are
the per-id classifications of the stored values under the two
namespaces, in batch order. -/
theorem read_batch_pipeline_success (cfg : ReaderConfig)
    (store : String → Option String)
    (lookup : String → Except Unit (Option String)) (keyIds : List Nat) :
    read_batch_with_pipeline cfg store false lookup keyIds
      = keyIds.map (fun keyId => classify_pair cfg keyId
          (store (create_redis_key_simple keyId cfg.primaryVersion))
          (store (create_redis_key_simple keyId cfg.fallbackVersion))) := by
  unfold read_batch_with_pipeline
  rw [if_neg Bool.false_ne_true]
  apply List.ext_getElem
  · simp
  · intro i h1 h2
    have hi : i < keyIds.length := by simpa using h2
    have hie : i < keyIds.enum.length := by simpa [List.enum_length] using hi
    rw [List.getElem_map, List.getElem_map, List.getElem_enum]
    have hresp := pipeline_responses_getD cfg store keyIds i hi
    have hgd : keyIds.getD i 0 = keyIds[i] := List.getD_eq_getElem keyIds 0 hi
    rw [hgd] at hresp
    simp only [hresp.1, hresp.2]

/-- Helper: when the pipelined call raises, exactly this batch's ids are
resolved through the sequential two-tier read. -/
theorem read_batch_pipeline_failure (cfg : ReaderConfig)
    (store : String → Option String)
    (lookup : String → Except Unit (Option String)) (keyIds : List Nat) :
    read_batch_with_pipeline cfg store true lookup keyIds
      = keyIds.map (read_key_with_fallback cfg lookup) := by
  unfold read_batch_with_pipeline
  rw [if_pos rfl]

/-- Helper: the sequential read echoes the requested id. -/
theorem read_key_with_fallback_keyId (cfg : ReaderConfig)
    (lookup : String → Except Unit (Option String)) (keyId : Nat) :
    (read_key_with_fallback cfg lookup keyId).keyId = keyId := by
  unfold read_key_with_fallback
  cases hp : lookup (create_redis_key_simple keyId cfg.primaryVersion) with
  | ok v =>
    by_cases hv : truthy v = true
    · simp [hp, hv]
    · cases hf : lookup (create_redis_key_simple keyId cfg.fallbackVersion) with
      | ok w =>
        by_cases hw : truthy w = true
        · simp [hp, hf, hv, hw]
        · simp [hp, hf, hv, hw]
      | error e => simp [hp, hf, hv]
  | error e =>
    cases hf : lookup (create_redis_key_simple keyId cfg.fallbackVersion) with
    | ok w =>
      by_cases hw : truthy w = true
      · simp [hp, hf, hw]
      · simp [hp, hf, hw]
    | error e2 => simp [hp, hf]

/-- Helper: the pipelined classification echoes the requested id. -/
theorem classify_pair_keyId (cfg : ReaderConfig) (keyId : Nat)
    (p f : Option String) :
    (classify_pair cfg keyId p f).keyId = keyId := by
  unfold classify_pair
  by_cases hp : truthy p = true
  · simp [hp]
  · by_cases hf : truthy f = true
    · simp [hp, hf]
    · simp [hp, hf]

/-- Helper: every id of a batch produces exactly one result, in order,
whether the batch's pipeline call succeeded or raised. -/
theorem read_batch_with_pipeline_keyIds (cfg : ReaderConfig)
    (store : String → Option String) (pipeFails : Bool)
    (lookup : String → Except Unit (Option String)) (keyIds : List Nat) :
    (read_batch_with_pipeline cfg store pipeFails lookup keyIds).map
        ReadResult.keyId = keyIds := by
  cases pipeFails with
  | false =>
    rw [read_batch_pipeline_success cfg store lookup keyIds, List.map_map]
    have h : ∀ x ∈ keyIds,
        (ReadResult.keyId ∘ fun keyId => classify_pair cfg keyId
          (store (create_redis_key_simple keyId cfg.primaryVersion))
          (store (create_redis_key_simple keyId cfg.fallbackVersion))) x
          = id x := fun x _ => classify_pair_keyId cfg x _ _
    rw [List.map_congr_left h, List.map_id]
  | true =>
    rw [read_batch_pipeline_failure cfg store lookup keyIds, List.map_map]
    have h : ∀ x ∈ keyIds,
        (ReadResult.keyId ∘ read_key_with_fallback cfg lookup) x = id x :=
      fun x _ => read_key_with_fallback_keyId cfg lookup x
    rw [List.map_congr_left h, List.map_id]

/-- Helper: with a positive batch size the batch slices concatenate back
to the original id list. -/
theorem chunk_list_flatten (batchSize : Nat) (hbs : 0 < batchSize) :
    ∀ keyIds : List Nat, (chunk_list batchSize keyIds).flatten = keyIds := by
  have haux : ∀ (n : Nat) (l : List Nat), l.length ≤ n →
      (chunk_list batchSize l).flatten = l := by
    intro n
    induction n with
    | zero =>
      intro l hl
      have hnil : l = [] := List.eq_nil_of_length_eq_zero (by omega)
      rw [hnil]
      simp [chunk_list]
    | succ n ih =>
      intro l hl
      match l with
      | [] => simp [chunk_list]
      | x :: xs =>
        simp only [chunk_list]
        rw [dif_neg (by omega : ¬ batchSize = 0)]
        rw [List.flatten_cons]
        have hdrop : ((x :: xs).drop batchSize).length ≤ n := by
          simp only [List.length_drop, List.length_cons]
          simp only [List.length_cons] at hl
          omega
        rw [ih _ hdrop, List.take_append_drop]
  exact fun keyIds => haux keyIds.length keyIds (Nat.le_refl _)

/-- C8: the single-threaded pipelined read issues, per batch, one
pipelined request holding a primary GET immediately followed by a
fallback GET for each id in batch order; on success the response list
is consumed as ordered pairs at positions (i * 2, i * 2 + 1) matching
the i-th id; on failure exactly the ids of that batch are resolved
through the sequential two-tier read; and in the chunked driver every
requested id yields exactly one ReadResult, in order, with other
batches unaffected. -/
theorem pipeline_batch_pairs_and_per_batch_fallback (cfg : ReaderConfig)
    (store : String → Option String)
    (lookup : String → Except Unit (Option String))
    (pipeFailsOn : List Nat → Bool) (keyIds : List Nat) (batchSize : Nat)
    (hbs : 0 < batchSize) :
    (pipeline_requests cfg keyIds).length = 2 * keyIds.length ∧
    (∀ i, i < keyIds.length →
      (pipeline_requests cfg keyIds).getD (i * 2) ""
          = create_redis_key_simple (keyIds.getD i 0) cfg.primaryVersion ∧
      (pipeline_requests cfg keyIds).getD (i * 2 + 1) ""
          = create_redis_key_simple (keyIds.getD i 0) cfg.fallbackVersion) ∧
    read_batch_with_pipeline cfg store false lookup keyIds
      = keyIds.map (fun keyId => classify_pair cfg keyId
          (store (create_redis_key_simple keyId cfg.primaryVersion))
          (store (create_redis_key_simple keyId cfg.fallbackVersion))) ∧
    read_batch_with_pipeline cfg store true lookup keyIds
      = keyIds.map (read_key_with_fallback cfg lookup) ∧
    (read_keys_pipeline_batch cfg store pipeFailsOn lookup keyIds
        batchSize).map ReadResult.keyId = keyIds := by
  refine ⟨(pipeline_requests_layout cfg keyIds).1,
    (pipeline_requests_layout cfg keyIds).2,
    read_batch_pipeline_success cfg store lookup keyIds,
    read_batch_pipeline_failure cfg store lookup keyIds, ?_⟩
  unfold read_keys_pipeline_batch
  rw [List.map_flatten, List.map_map]
  have h : ∀ batch ∈ chunk_list batchSize keyIds,
      (List.map ReadResult.keyId ∘ fun batch =>
        read_batch_with_pipeline cfg store (pipeFailsOn batch) lookup batch)
        batch = id batch :=
    fun batch _ =>
      read_batch_with_pipeline_keyIds cfg store (pipeFailsOn batch) lookup
        batch
  rw [List.map_congr_left h, List.map_id,
    chunk_list_flatten batchSize hbs keyIds]

/-- Witness for C8 at batch size 2 on four ids, with the second batch's
pipeline call raising. -/
theorem pipeline_batch_pairs_and_per_batch_fallback_witness :
    0 < 2 ∧
    ((read_keys_pipeline_batch sample_reader_config (fun _ => none)
        (fun batch => decide (7 ∈ batch)) sample_lookup [1, 7, 2, 9] 2).map
        ReadResult.keyId = [1, 7, 2, 9]) :=
  ⟨by decide,
    (pipeline_batch_pairs_and_per_batch_fallback sample_reader_config
      (fun _ => none) sample_lookup (fun batch => decide (7 ∈ batch))
      [1, 7, 2, 9] 2 (by decide)).2.2.2.2⟩

/-- Helper: closed form of the accumulated key_offset. -/
theorem thread_offset_closed (totalReads numThreads : Nat) :
    ∀ i, thread_offset totalReads numThreads i
      = i * reads_per_thread totalReads numThreads
        + min i (remaining_reads totalReads numThreads) := by
  intro i
  induction i with
  | zero => simp [thread_offset]
  | succ i ih =>
    have hs : (i + 1) * reads_per_thread totalReads numThreads
        = i * reads_per_thread totalReads numThreads
          + reads_per_thread totalReads numThreads := by ring
    show thread_offset totalReads numThreads i
        + thread_reads totalReads numThreads i = _
    rw [ih, hs]
    unfold thread_reads
    by_cases h : i < remaining_reads totalReads numThreads
    · simp only [h, if_true]
      omega
    · simp only [h, if_false]
      omega

/-- Helper: the first n per-thread slices concatenate to the prefix of
the id list up to the n-th offset. -/
theorem thread_slices_flatten_take (allKeyIds : List Nat)
    (totalReads numThreads : Nat) :
    ∀ n, ((List.range n).map
        (thread_slice allKeyIds totalReads numThreads)).flatten
      = allKeyIds.take (thread_offset totalReads numThreads n) := by
  intro n
  induction n with
  | zero => simp [thread_offset]
  | succ n ih =>
    rw [List.range_succ, List.map_append, List.flatten_append, ih]
    simp only [List.map_cons, List.map_nil, List.flatten_cons,
      List.flatten_nil, List.append_nil]
    show _ = allKeyIds.take (thread_offset totalReads numThreads n
      + thread_reads totalReads numThreads n)
    rw [List.take_add]
    rfl

/-- C5 counterexample: at 5 pre-generated ids and 3 threads the code
slices the id list as sizes (2, 2, 1) — the remainder goes one-each to
the early threads — while the write-partitioning rule stated by the
claim gives (1, 1, 3) with the whole remainder on the last slice. -/
theorem multithreaded_slices_not_partition_rule :
    thread_slices [10, 11, 12, 13, 14] 5 3
      ≠ last_remainder_slices [10, 11, 12, 13, 14] 5 3 := by
  decide

/-- C5 amended: the pre-generated id sequence is split into contiguous
per-thread slices that are disjoint and together cover all ids exactly
once, but the remainder is distributed one id each to the first
total_reads mod num_threads threads (not appended to the last slice):
slice i has exactly reads_per_thread + (1 if i < remainder) ids and the
slices concatenate back to the exact id sequence. -/
theorem multithreaded_slices_exact_cover (allKeyIds : List Nat)
    (totalReads numThreads : Nat) (hn : 1 ≤ numThreads)
    (hlen : allKeyIds.length = totalReads) :
    (thread_slices allKeyIds totalReads numThreads).flatten = allKeyIds ∧
    ∀ i, i < numThreads →
      (thread_slice allKeyIds totalReads numThreads i).length
        = reads_per_thread totalReads numThreads
          + (if i < remaining_reads totalReads numThreads then 1 else 0) := by
  have hrem : remaining_reads totalReads numThreads < numThreads :=
    Nat.mod_lt _ hn
  have hdm : numThreads * reads_per_thread totalReads numThreads
      + remaining_reads totalReads numThreads = totalReads :=
    Nat.div_add_mod totalReads numThreads
  have hofsN : thread_offset totalReads numThreads numThreads = totalReads := by
    rw [thread_offset_closed]
    omega
  constructor
  · unfold thread_slices
    rw [thread_slices_flatten_take, hofsN, ← hlen, List.take_length]
  · intro i hi
    have hle : thread_offset totalReads numThreads i
        + thread_reads totalReads numThreads i ≤ totalReads := by
      have h1 : thread_offset totalReads numThreads i
          + thread_reads totalReads numThreads i
          = thread_offset totalReads numThreads (i + 1) := rfl
      rw [h1, thread_offset_closed]
      have hmul : (i + 1) * reads_per_thread totalReads numThreads
          ≤ numThreads * reads_per_thread totalReads numThreads :=
        Nat.mul_le_mul_right _ hi
      omega
    unfold thread_slice
    rw [List.length_take, List.length_drop, hlen]
    have hreads : thread_reads totalReads numThreads i
        = reads_per_thread totalReads numThreads
          + (if i < remaining_reads totalReads numThreads then 1 else 0) :=
      rfl
    omega

/-- Witness for amended C5 at 5 ids and 3 threads: slices (2, 2, 1)
concatenating back to the id list. -/
theorem multithreaded_slices_exact_cover_witness :
    1 ≤ 3 ∧ ([10, 11, 12, 13, 14] : List Nat).length = 5 ∧
    ((thread_slices [10, 11, 12, 13, 14] 5 3).flatten
        = [10, 11, 12, 13, 14] ∧
      ∀ i, i < 3 → (thread_slice [10, 11, 12, 13, 14] 5 3 i).length
        = reads_per_thread 5 3 + (if i < remaining_reads 5 3 then 1 else 0)) :=
  ⟨by decide, by decide,
    multithreaded_slices_exact_cover [10, 11, 12, 13, 14] 5 3 (by decide)
      (by decide)⟩

/-- C6 counterexample: at combined_rate = 1 key/sec the code's
projection for a target of 1000 keys is (66000000 * 2 * 0.95) / 1 /
3600 hours, which differs from the claimed hypothetical_total_keys /
combined_rate, whether that quotient is read in seconds or converted to
hours — the 0.95 factor makes them unequal. -/
theorem estimated_66m_time_not_claimed_projection :
    estimated_66m_time 1000 1 ≠ some (claimed_projection (66000000 * 2) 1) ∧
    estimated_66m_time 1000 1
      ≠ some (claimed_projection (66000000 * 2) 1 / 3600) := by
  constructor
  · intro h
    rw [estimated_66m_time, if_pos (by norm_num)] at h
    rw [Option.some_inj] at h
    unfold claimed_projection at h
    norm_num at h
  · intro h
    rw [estimated_66m_time, if_pos (by norm_num)] at h
    rw [Option.some_inj] at h
    unfold claimed_projection at h
    norm_num at h

/-- C6 amended: when the projection is produced (target_keys below
66000000), it equals 0.95 times the linear projection
hypothetical_total_keys / combined_rate for hypothetical_total_keys =
66000000 * 2, converted from seconds to hours by a further division by
3600. -/
theorem estimated_66m_time_scaled_projection (targetKeys : Nat)
    (combinedRate : ℚ) (h : targetKeys < 66000000) :
    estimated_66m_time targetKeys combinedRate
      = some ((95 / 100)
          * claimed_projection (66000000 * 2) combinedRate / 3600) := by
  unfold estimated_66m_time claimed_projection
  rw [if_pos h]
  congr 1
  push_cast
  ring

/-- Witness for amended C6 at target 1000 and rate 2. -/
theorem estimated_66m_time_scaled_projection_witness :
    1000 < 66000000 ∧
    estimated_66m_time 1000 2
      = some ((95 / 100) * claimed_projection (66000000 * 2) 2 / 3600) :=
  ⟨by norm_num,
    estimated_66m_time_scaled_projection 1000 2 (by norm_num)⟩

end LocationFlex
